import Mathlib

/-!
Verification of `smart_ptr::shared_ptr` / `smart_ptr::weak_ptr`
(src/shared_ptr.h): a shallow embedding of the reference-counted
smart-pointer header.

The C++ data is modelled as follows.

* `CB` is one `control_block`: `usages` and `weakUsages` are the two
  `std::atomic<int>` counters (embedded as `Int`, as the C++ `int`),
  `payloadPtr` is the raw `T* payload_` (a `Nat` pointer value, `none` =
  `nullptr`).  `destroyCount` counts the executions of `delete payload_`
  that destroy an actual object (a `delete` of a null pointer destroys
  nothing), and `freeCount` the executions of `delete control_`, so that
  "destroyed exactly once" / "freed exactly once" are countable facts.
  A freed block stays in the list with its flags; nothing is removed.

* `State` holds the heap of control blocks (a block's list index is its
  address) plus the two stores of live handle objects: `shared` is the list
  of live `shared_ptr` objects (each is its `control_` field, an
  `Option` block address), `weak` the list of live `weak_ptr` objects.
  A moved-from handle stays in its store with `control_ = none`; a
  destroyed handle is erased from the store.

* `Op` enumerates the public operations the claims quantify over, each
  translated clause for clause from the header; `run` executes a sequence
  from the empty heap.  Operations are sequential: each `Op` is one
  uninterleaved call, matching a single-threaded execution.  The one place
  where the header's behaviour under interleaving is itself the claim —
  the compare-exchange loop of `shared_ptr(const weak_ptr&)` — is modelled
  separately (`casLoop`) with an explicit interference schedule.
-/

namespace SharedPtr

instance {ε α : Type} [DecidableEq ε] [DecidableEq α] : DecidableEq (Except ε α) :=
  fun x y =>
    match x, y with
    | Except.ok a, Except.ok b =>
      if h : a = b then isTrue (by rw [h])
      else isFalse (by intro hc; injection hc; exact h (by assumption))
    | Except.error a, Except.error b =>
      if h : a = b then isTrue (by rw [h])
      else isFalse (by intro hc; injection hc; exact h (by assumption))
    | Except.ok _, Except.error _ => isFalse (fun hc => Except.noConfusion hc)
    | Except.error _, Except.ok _ => isFalse (fun hc => Except.noConfusion hc)

/-- One `control_block` (src/shared_ptr.h lines 38–50), with event counters
for `delete payload_` and `delete control_`. -/
structure CB where
  usages : Int
  weakUsages : Int
  payloadPtr : Option Nat
  destroyCount : Nat
  freeCount : Nat
deriving Repr, DecidableEq

/-- `control_block::control_block(T*)`: `usages_{1}`, `weak_usages_{1}`
(all shared pointers collectively hold one weak stake). -/
def CB.mk1 (p : Option Nat) : CB :=
  ⟨1, 1, p, 0, 0⟩

/-- The whole program state: the heap of control blocks and the stores of
live `shared_ptr` and `weak_ptr` objects. -/
structure State where
  blocks : List CB
  shared : List (Option Nat)
  weak : List (Option Nat)
deriving Repr, DecidableEq

def State.init : State :=
  ⟨[], [], []⟩

/-- Read block `b`; out-of-range reads give an inert dummy block. -/
def getBlk (s : State) (b : Nat) : CB :=
  s.blocks.getD b ⟨0, 0, none, 0, 0⟩

def setBlk (s : State) (b : Nat) (c : CB) : State :=
  { s with blocks := s.blocks.set b c }

def pushShared (s : State) (v : Option Nat) : State :=
  { s with shared := s.shared ++ [v] }

def setShared (s : State) (i : Nat) (v : Option Nat) : State :=
  { s with shared := s.shared.set i v }

def eraseShared (s : State) (i : Nat) : State :=
  { s with shared := s.shared.eraseIdx i }

def pushWeak (s : State) (v : Option Nat) : State :=
  { s with weak := s.weak ++ [v] }

def eraseWeak (s : State) (j : Nat) : State :=
  { s with weak := s.weak.eraseIdx j }

/-- `++control_->usages_` as the copy constructor performs it: only when the
handle is non-empty (`if(other)`). -/
def retainStrong (s : State) (v : Option Nat) : State :=
  match v with
  | none => s
  | some b => setBlk s b { getBlk s b with usages := (getBlk s b).usages + 1 }

/-- `++control_->weak_usages_` guarded by `if (control_)`. -/
def retainWeak (s : State) (v : Option Nat) : State :=
  match v with
  | none => s
  | some b => setBlk s b { getBlk s b with weakUsages := (getBlk s b).weakUsages + 1 }

/-- The body of `shared_ptr::finish_one_instance_` on one block
(src/shared_ptr.h lines 54–70): `if (--usages_ == 0) { delete payload_;
if (--weak_usages_ == 0) delete control_; }`. -/
def finishCB (c : CB) : CB :=
  let c1 : CB := { c with usages := c.usages - 1 }
  if c1.usages = 0 then
    let c2 : CB :=
      { c1 with destroyCount := c1.destroyCount + (if c1.payloadPtr.isSome then 1 else 0) }
    let c3 : CB := { c2 with weakUsages := c2.weakUsages - 1 }
    if c3.weakUsages = 0 then { c3 with freeCount := c3.freeCount + 1 } else c3
  else c1

/-- Effect of `finish_one_instance_` on the heap: a no-op for an empty
handle (`if (!control_) return;`). -/
def finishBlocks (bl : List CB) (v : Option Nat) : List CB :=
  match v with
  | none => bl
  | some b => bl.set b (finishCB (bl.getD b ⟨0, 0, none, 0, 0⟩))

def finishOne (s : State) (v : Option Nat) : State :=
  { s with blocks := finishBlocks s.blocks v }

/-- The body of `weak_ptr::~weak_ptr` on one block
(src/shared_ptr.h lines 203–212): `if (--weak_usages_ == 0) delete control_;`. -/
def releaseWeakCB (c : CB) : CB :=
  let c1 : CB := { c with weakUsages := c.weakUsages - 1 }
  if c1.weakUsages = 0 then { c1 with freeCount := c1.freeCount + 1 } else c1

def releaseWeakOne (s : State) (v : Option Nat) : State :=
  match v with
  | none => s
  | some b => setBlk s b (releaseWeakCB (getBlk s b))

/-- Allocate a fresh control block over payload `p` and append the owning
handle that created it (`control_ = new control_block(ptr)`). -/
def newBlock (s : State) (p : Option Nat) : State :=
  { s with
    blocks := s.blocks ++ [CB.mk1 p]
    shared := s.shared ++ [some s.blocks.length] }

/-- `shared_ptr::use_count()`: `control_ ? control_->usages_.load() : 0`. -/
def useCount (s : State) (i : Nat) : Int :=
  match s.shared.getD i none with
  | none => 0
  | some b => (getBlk s b).usages

/-- `shared_ptr::get()`: `control_ ? control_->payload_ : nullptr`. -/
def getPtr (s : State) (i : Nat) : Option Nat :=
  match s.shared.getD i none with
  | none => none
  | some b => (getBlk s b).payloadPtr

/-- `weak_ptr::expired()`: `(!control_) || (control_->usages_ == 0)`. -/
def expiredAt (s : State) (j : Nat) : Bool :=
  match s.weak.getD j none with
  | none => true
  | some b => (getBlk s b).usages = 0

/-- The compare-exchange loop of `shared_ptr::shared_ptr(const weak_ptr<Y>&)`
(src/shared_ptr.h lines 118–129):

    int usages = control_->usages_.load();
    do {
      if (usages == 0) { throw std::bad_weak_ptr{}; }
    } while (control_->usages_.compare_exchange_weak(usages, 1 + usages));

`sched` is the interference schedule: the value other threads set the
counter to immediately before each of this thread's CAS attempts (an empty
schedule from some point on means the counter is no longer touched by
others).  `cnt` is the current value of `usages_`, `us` the local variable
`usages`.  Returns the final counter value and how many successful
increments this thread performed, or `error` for the `bad_weak_ptr` throw.

Note the loop's exit condition as written in the header: it loops WHILE the
compare-exchange succeeds and exits as soon as it fails. -/
def casLoop : List Int → Int → Int → Except Unit (Int × Nat)
  | sched, cnt, us =>
    if us = 0 then Except.error ()
    else
      match sched with
      | [] =>
        if cnt = us then
          -- CAS succeeds (counter = us + 1, loop again); with no further
          -- interference the next CAS fails against us + 1 and the loop exits.
          Except.ok (us + 1, 1)
        else
          -- CAS fails: `usages` is reloaded and the loop exits.
          Except.ok (cnt, 0)
      | i :: rest =>
        if i = us then
          match casLoop rest (us + 1) us with
          | Except.ok (c, n) => Except.ok (c, n + 1)
          | Except.error e => Except.error e
        else
          Except.ok (i, 0)

/-- `bad_weak_ptr` versus the null dereference of an empty source. -/
inductive PromoteErr where
  | nullDeref
  | badWeakPtr
deriving Repr, DecidableEq

/-- `shared_ptr::shared_ptr(const weak_ptr<Y>&)` run sequentially (no
interference): `control_(r.control_)` followed by the compare-exchange
loop.  When `r.control_` is null the very first read
`control_->usages_.load()` dereferences a null pointer. -/
def sharedFromWeak (s : State) (j : Nat) : Except PromoteErr State :=
  match s.weak.getD j none with
  | none => Except.error PromoteErr.nullDeref
  | some b =>
    match casLoop [] (getBlk s b).usages (getBlk s b).usages with
    | Except.error _ => Except.error PromoteErr.badWeakPtr
    | Except.ok _ => Except.ok (pushShared (retainStrong s (some b)) (some b))

/-- `weak_ptr::lock()`: `expired() ? shared_ptr{} : shared_ptr{*this}`, with
`catch (const std::bad_weak_ptr&) { return shared_ptr{}; }`. -/
def lockW (s : State) (j : Nat) : State :=
  if expiredAt s j then pushShared s none
  else
    match sharedFromWeak s j with
    | Except.ok s' => s'
    | Except.error _ => pushShared s none

/-- Copy constructor (src/shared_ptr.h lines 103–111): adopt `other.control_`
and `++usages_` when the source is non-empty. -/
def copySharedF (s : State) (i : Nat) : State :=
  if i < s.shared.length then
    pushShared (retainStrong s (s.shared.getD i none)) (s.shared.getD i none)
  else s

/-- Move constructor (src/shared_ptr.h lines 113–116): swap with the
default-initialised `control_`, so the new handle takes the value and the
source is left empty.  No counter is touched. -/
def moveSharedF (s : State) (i : Nat) : State :=
  if i < s.shared.length then
    pushShared (setShared s i none) (s.shared.getD i none)
  else s

/-- Destructor `~shared_ptr`: `finish_one_instance_()`, then the handle
object is gone. -/
def dropSharedF (s : State) (i : Nat) : State :=
  if i < s.shared.length then
    eraseShared (finishOne s (s.shared.getD i none)) i
  else s

/-- The friend `swap(shared_ptr&, shared_ptr&)`: `std::swap(lhs.control_,
rhs.control_)`. -/
def swapSlots (s : State) (i j : Nat) : State :=
  setShared (setShared s i (s.shared.getD j none)) j (s.shared.getD i none)

/-- `weak_ptr(const shared_ptr<T>&)` (src/shared_ptr.h lines 214–221). -/
def mkWeakF (s : State) (i : Nat) : State :=
  if i < s.shared.length then
    pushWeak (retainWeak s (s.shared.getD i none)) (s.shared.getD i none)
  else s

/-- `weak_ptr(const weak_ptr&)` (src/shared_ptr.h lines 224–231). -/
def copyWeakF (s : State) (j : Nat) : State :=
  if j < s.weak.length then
    pushWeak (retainWeak s (s.weak.getD j none)) (s.weak.getD j none)
  else s

/-- `~weak_ptr` (src/shared_ptr.h lines 203–212). -/
def dropWeakF (s : State) (j : Nat) : State :=
  if j < s.weak.length then
    eraseWeak (releaseWeakOne s (s.weak.getD j none)) j
  else s

/-- The public operations the claims quantify over.  Handle arguments are
store indices; an out-of-range index makes the operation a no-op (in C++
there is no such call). -/
inductive Op where
  /-- `shared_ptr(T* ptr)`: a null pointer gives an empty handle, otherwise
  a fresh control block. -/
  | mkShared (p : Option Nat)
  /-- `shared_ptr(std::unique_ptr<T>&&)`: `control_(new control_block(ptr.release()))`
  — a control block is allocated unconditionally. -/
  | mkFromUnique (p : Option Nat)
  /-- copy constructor. -/
  | copyShared (i : Nat)
  /-- move constructor (`std::swap(control_, other.control_)` against the
  freshly default-initialised handle). -/
  | moveShared (i : Nat)
  /-- `operator=(shared_ptr other)` called with an lvalue: the by-value
  parameter is copy-constructed, then `swap(*this, other)` (the ADL friend),
  then the parameter's destructor releases the old value. -/
  | assign (dst src : Nat)
  /-- `operator=(shared_ptr other)` called with an rvalue: the parameter is
  move-constructed (the source is emptied first), then swapped, then
  destroyed. -/
  | moveAssign (dst src : Nat)
  /-- `~shared_ptr`: `finish_one_instance_()`, handle gone. -/
  | dropShared (i : Nat)
  /-- `weak_ptr(const shared_ptr<T>&)`. -/
  | mkWeak (i : Nat)
  /-- `weak_ptr(const weak_ptr&)`. -/
  | copyWeak (j : Nat)
  /-- `~weak_ptr`. -/
  | dropWeak (j : Nat)
  /-- `weak_ptr::lock()`, its result handle kept. -/
  | lockWeak (j : Nat)
deriving Repr, DecidableEq

def apply (s : State) : Op → State
  | Op.mkShared p =>
    match p with
    | none => pushShared s none
    | some q => newBlock s (some q)
  | Op.mkFromUnique p => newBlock s p
  | Op.copyShared i => copySharedF s i
  | Op.moveShared i => moveSharedF s i
  | Op.assign dst src =>
    -- `operator=(shared_ptr other)` with an lvalue: the by-value parameter
    -- is copy-constructed (a temporary handle at the end of the store),
    -- `swap(*this, other)` exchanges the two `control_` fields, and the
    -- parameter's destructor releases what the left-hand side used to hold.
    if dst < s.shared.length ∧ src < s.shared.length then
      dropSharedF (swapSlots (copySharedF s src) dst s.shared.length) s.shared.length
    else s
  | Op.moveAssign dst src =>
    -- the same operator with an rvalue: the parameter is move-constructed,
    -- which empties the source before the swap.
    if dst < s.shared.length ∧ src < s.shared.length then
      dropSharedF (swapSlots (moveSharedF s src) dst s.shared.length) s.shared.length
    else s
  | Op.dropShared i => dropSharedF s i
  | Op.mkWeak i => mkWeakF s i
  | Op.copyWeak j => copyWeakF s j
  | Op.dropWeak j => dropWeakF s j
  | Op.lockWeak j =>
    if j < s.weak.length then lockW s j else s

/-- Run a sequence of public operations from the empty heap. -/
def run (ops : List Op) : State :=
  ops.foldl apply State.init

/-- How many live owning handles reference block `b`. -/
def countRefs (l : List (Option Nat)) (b : Nat) : Nat :=
  (l.filter (fun v => v = some b)).length

/-! ### List bookkeeping lemmas -/

theorem countRefs_cons (x : Option Nat) (t : List (Option Nat)) (b : Nat) :
    countRefs (x :: t) b = (if x = some b then 1 else 0) + countRefs t b := by
  simp only [countRefs, List.filter_cons]
  split <;> simp_all <;> omega

theorem countRefs_append (l1 l2 : List (Option Nat)) (b : Nat) :
    countRefs (l1 ++ l2) b = countRefs l1 b + countRefs l2 b := by
  simp [countRefs, List.filter_append]

theorem countRefs_push (l : List (Option Nat)) (v : Option Nat) (b : Nat) :
    countRefs (l ++ [v]) b = countRefs l b + (if v = some b then 1 else 0) := by
  rw [countRefs_append, countRefs_cons]
  simp [countRefs]

theorem countRefs_set (l : List (Option Nat)) (i : Nat) (v : Option Nat) (b : Nat)
    (h : i < l.length) :
    countRefs (l.set i v) b + (if l.getD i none = some b then 1 else 0)
      = countRefs l b + (if v = some b then 1 else 0) := by
  induction l generalizing i with
  | nil => simp at h
  | cons a t ih =>
    cases i with
    | zero => simp [countRefs_cons, List.getD]; omega
    | succ n =>
      have hn : n < t.length := by simpa using h
      have := ih n hn
      simp only [List.set, countRefs_cons, List.getD_cons_succ]
      omega

theorem countRefs_eraseIdx (l : List (Option Nat)) (i : Nat) (b : Nat)
    (h : i < l.length) :
    countRefs (l.eraseIdx i) b + (if l.getD i none = some b then 1 else 0)
      = countRefs l b := by
  induction l generalizing i with
  | nil => simp at h
  | cons a t ih =>
    cases i with
    | zero => simp [countRefs_cons, List.getD]; omega
    | succ n =>
      have hn : n < t.length := by simpa using h
      have := ih n hn
      simp only [List.eraseIdx, countRefs_cons, List.getD_cons_succ]
      omega

theorem countRefs_pos (l : List (Option Nat)) (i : Nat) (b : Nat)
    (h : i < l.length) (hv : l.getD i none = some b) : 0 < countRefs l b := by
  induction l generalizing i with
  | nil => simp at h
  | cons a t ih =>
    cases i with
    | zero => simp only [List.getD_cons_zero] at hv; simp [countRefs_cons, hv]
    | succ n =>
      have hn : n < t.length := by simpa using h
      have := ih n hn (by simpa using hv)
      simp only [countRefs_cons]
      omega

theorem countRefs_eq_zero (l : List (Option Nat)) (b : Nat)
    (h : some b ∉ l) : countRefs l b = 0 := by
  induction l with
  | nil => rfl
  | cons a t ih =>
    simp only [List.mem_cons, not_or] at h
    have ha : ¬(a = some b) := fun e => h.1 e.symm
    rw [countRefs_cons, ih h.2, if_neg ha]


theorem getD_set_self {α : Type} (v d : α) :
    ∀ (l : List α) (i : Nat), i < l.length → (l.set i v).getD i d = v
  | [], i, h => absurd h (by simp)
  | _ :: _, 0, _ => rfl
  | _ :: t, n + 1, h => getD_set_self v d t n (by simpa using h)

theorem getD_set_ne {α : Type} (v d : α) :
    ∀ (l : List α) (i j : Nat), i ≠ j → (l.set i v).getD j d = l.getD j d
  | [], _, _, _ => by simp
  | _ :: _, 0, 0, h => absurd rfl h
  | _ :: _, 0, _ + 1, _ => rfl
  | _ :: _, _ + 1, 0, _ => rfl
  | _ :: t, i + 1, j + 1, h => getD_set_ne v d t i j (fun e => h (by rw [e]))

theorem getD_push_lt {α : Type} (v d : α) (l : List α) (i : Nat) (h : i < l.length) :
    (l ++ [v]).getD i d = l.getD i d :=
  List.getD_append _ _ _ _ h

theorem getD_push_len {α : Type} (v d : α) (l : List α) :
    (l ++ [v]).getD l.length d = v := by
  rw [List.getD_append_right _ _ _ _ (Nat.le_refl _), Nat.sub_self]
  rfl

theorem getD_mem (l : List (Option Nat)) (i : Nat) (h : i < l.length) :
    l.getD i none ∈ l := by
  rw [List.getD_eq_getElem _ _ h]
  exact List.getElem_mem h

/-! ### Projection lemmas for the state builders -/

@[simp] theorem pushShared_blocks (s : State) (v : Option Nat) :
    (pushShared s v).blocks = s.blocks := rfl

@[simp] theorem pushShared_shared (s : State) (v : Option Nat) :
    (pushShared s v).shared = s.shared ++ [v] := rfl

@[simp] theorem pushShared_weak (s : State) (v : Option Nat) :
    (pushShared s v).weak = s.weak := rfl

@[simp] theorem setShared_blocks (s : State) (i : Nat) (v : Option Nat) :
    (setShared s i v).blocks = s.blocks := rfl

@[simp] theorem setShared_shared (s : State) (i : Nat) (v : Option Nat) :
    (setShared s i v).shared = s.shared.set i v := rfl

@[simp] theorem setShared_weak (s : State) (i : Nat) (v : Option Nat) :
    (setShared s i v).weak = s.weak := rfl

@[simp] theorem eraseShared_blocks (s : State) (i : Nat) :
    (eraseShared s i).blocks = s.blocks := rfl

@[simp] theorem eraseShared_shared (s : State) (i : Nat) :
    (eraseShared s i).shared = s.shared.eraseIdx i := rfl

@[simp] theorem eraseShared_weak (s : State) (i : Nat) :
    (eraseShared s i).weak = s.weak := rfl

@[simp] theorem pushWeak_blocks (s : State) (v : Option Nat) :
    (pushWeak s v).blocks = s.blocks := rfl

@[simp] theorem pushWeak_shared (s : State) (v : Option Nat) :
    (pushWeak s v).shared = s.shared := rfl

@[simp] theorem pushWeak_weak (s : State) (v : Option Nat) :
    (pushWeak s v).weak = s.weak ++ [v] := rfl

@[simp] theorem eraseWeak_blocks (s : State) (j : Nat) :
    (eraseWeak s j).blocks = s.blocks := rfl

@[simp] theorem eraseWeak_shared (s : State) (j : Nat) :
    (eraseWeak s j).shared = s.shared := rfl

@[simp] theorem eraseWeak_weak (s : State) (j : Nat) :
    (eraseWeak s j).weak = s.weak.eraseIdx j := rfl

@[simp] theorem setBlk_shared (s : State) (b : Nat) (c : CB) :
    (setBlk s b c).shared = s.shared := rfl

@[simp] theorem setBlk_weak (s : State) (b : Nat) (c : CB) :
    (setBlk s b c).weak = s.weak := rfl

@[simp] theorem setBlk_blocks_length (s : State) (b : Nat) (c : CB) :
    (setBlk s b c).blocks.length = s.blocks.length := by
  simp [setBlk]

@[simp] theorem retainStrong_shared (s : State) (v : Option Nat) :
    (retainStrong s v).shared = s.shared := by
  cases v <;> rfl

@[simp] theorem retainStrong_weak (s : State) (v : Option Nat) :
    (retainStrong s v).weak = s.weak := by
  cases v <;> rfl

@[simp] theorem retainStrong_blocks_length (s : State) (v : Option Nat) :
    (retainStrong s v).blocks.length = s.blocks.length := by
  cases v <;> simp [retainStrong]

@[simp] theorem retainWeak_shared (s : State) (v : Option Nat) :
    (retainWeak s v).shared = s.shared := by
  cases v <;> rfl

@[simp] theorem retainWeak_weak (s : State) (v : Option Nat) :
    (retainWeak s v).weak = s.weak := by
  cases v <;> rfl

@[simp] theorem retainWeak_blocks_length (s : State) (v : Option Nat) :
    (retainWeak s v).blocks.length = s.blocks.length := by
  cases v <;> simp [retainWeak]

@[simp] theorem finishOne_shared (s : State) (v : Option Nat) :
    (finishOne s v).shared = s.shared := rfl

@[simp] theorem finishOne_weak (s : State) (v : Option Nat) :
    (finishOne s v).weak = s.weak := rfl

@[simp] theorem finishBlocks_length (bl : List CB) (v : Option Nat) :
    (finishBlocks bl v).length = bl.length := by
  cases v <;> simp [finishBlocks]

@[simp] theorem finishOne_blocks_length (s : State) (v : Option Nat) :
    (finishOne s v).blocks.length = s.blocks.length := by
  simp [finishOne]

@[simp] theorem releaseWeakOne_shared (s : State) (v : Option Nat) :
    (releaseWeakOne s v).shared = s.shared := by
  cases v <;> rfl

@[simp] theorem releaseWeakOne_weak (s : State) (v : Option Nat) :
    (releaseWeakOne s v).weak = s.weak := by
  cases v <;> rfl

@[simp] theorem releaseWeakOne_blocks_length (s : State) (v : Option Nat) :
    (releaseWeakOne s v).blocks.length = s.blocks.length := by
  cases v <;> simp [releaseWeakOne]

theorem getBlk_setBlk_self (s : State) (b : Nat) (c : CB) (h : b < s.blocks.length) :
    getBlk (setBlk s b c) b = c :=
  getD_set_self c _ s.blocks b h

theorem getBlk_setBlk_ne (s : State) (b b' : Nat) (c : CB) (h : b ≠ b') :
    getBlk (setBlk s b c) b' = getBlk s b' :=
  getD_set_ne c _ s.blocks b b' h

theorem getBlk_retainStrong_self (s : State) (b : Nat) (h : b < s.blocks.length) :
    getBlk (retainStrong s (some b)) b
      = { getBlk s b with usages := (getBlk s b).usages + 1 } :=
  getBlk_setBlk_self s b _ h

theorem getBlk_retainStrong_ne (s : State) (b b' : Nat) (h : b ≠ b') :
    getBlk (retainStrong s (some b)) b' = getBlk s b' :=
  getBlk_setBlk_ne s b b' _ h

@[simp] theorem getBlk_retainStrong_none (s : State) (b : Nat) :
    getBlk (retainStrong s none) b = getBlk s b := rfl

theorem getBlk_retainWeak_self (s : State) (b : Nat) (h : b < s.blocks.length) :
    getBlk (retainWeak s (some b)) b
      = { getBlk s b with weakUsages := (getBlk s b).weakUsages + 1 } :=
  getBlk_setBlk_self s b _ h

theorem getBlk_retainWeak_ne (s : State) (b b' : Nat) (h : b ≠ b') :
    getBlk (retainWeak s (some b)) b' = getBlk s b' :=
  getBlk_setBlk_ne s b b' _ h

theorem getBlk_finishOne_self (s : State) (b : Nat) (h : b < s.blocks.length) :
    getBlk (finishOne s (some b)) b = finishCB (getBlk s b) :=
  getD_set_self _ _ s.blocks b h

theorem getBlk_finishOne_ne (s : State) (b b' : Nat) (h : b ≠ b') :
    getBlk (finishOne s (some b)) b' = getBlk s b' :=
  getD_set_ne _ _ s.blocks b b' h

@[simp] theorem getBlk_finishOne_none (s : State) (b : Nat) :
    getBlk (finishOne s none) b = getBlk s b := rfl

theorem getBlk_releaseWeakOne_self (s : State) (b : Nat) (h : b < s.blocks.length) :
    getBlk (releaseWeakOne s (some b)) b = releaseWeakCB (getBlk s b) :=
  getD_set_self _ _ s.blocks b h

theorem getBlk_releaseWeakOne_ne (s : State) (b b' : Nat) (h : b ≠ b') :
    getBlk (releaseWeakOne s (some b)) b' = getBlk s b' :=
  getD_set_ne _ _ s.blocks b b' h

@[simp] theorem getBlk_releaseWeakOne_none (s : State) (b : Nat) :
    getBlk (releaseWeakOne s none) b = getBlk s b := rfl

@[simp] theorem getBlk_pushShared (s : State) (v : Option Nat) (b : Nat) :
    getBlk (pushShared s v) b = getBlk s b := rfl

@[simp] theorem getBlk_setShared (s : State) (i : Nat) (v : Option Nat) (b : Nat) :
    getBlk (setShared s i v) b = getBlk s b := rfl

@[simp] theorem getBlk_eraseShared (s : State) (i : Nat) (b : Nat) :
    getBlk (eraseShared s i) b = getBlk s b := rfl

@[simp] theorem getBlk_pushWeak (s : State) (v : Option Nat) (b : Nat) :
    getBlk (pushWeak s v) b = getBlk s b := rfl

@[simp] theorem getBlk_eraseWeak (s : State) (j : Nat) (b : Nat) :
    getBlk (eraseWeak s j) b = getBlk s b := rfl

theorem getBlk_newBlock_lt (s : State) (p : Option Nat) (b : Nat)
    (h : b < s.blocks.length) :
    getBlk (newBlock s p) b = getBlk s b :=
  getD_push_lt _ _ s.blocks b h

theorem getBlk_newBlock_self (s : State) (p : Option Nat) :
    getBlk (newBlock s p) s.blocks.length = CB.mk1 p :=
  getD_push_len _ _ s.blocks

@[simp] theorem newBlock_blocks_length (s : State) (p : Option Nat) :
    (newBlock s p).blocks.length = s.blocks.length + 1 := by
  simp [newBlock]

@[simp] theorem newBlock_shared (s : State) (p : Option Nat) :
    (newBlock s p).shared = s.shared ++ [some s.blocks.length] := rfl

@[simp] theorem newBlock_weak (s : State) (p : Option Nat) :
    (newBlock s p).weak = s.weak := rfl

/-! ### The counting invariant

`Inv` ties every control block's counters to the handles that reference it:
`usages_` is the number of live owning handles, `weak_usages_` the number of
live observing handles plus the one collective stake of the strong owners,
the payload has been `delete`d exactly when the strong count reached zero,
and the block itself has been `delete`d exactly when the weak count reached
zero. -/

structure Inv (s : State) : Prop where
  validS : ∀ b : Nat, some b ∈ s.shared → b < s.blocks.length
  validW : ∀ b : Nat, some b ∈ s.weak → b < s.blocks.length
  strong : ∀ b : Nat, b < s.blocks.length →
    (getBlk s b).usages = (countRefs s.shared b : Int)
  weakC : ∀ b : Nat, b < s.blocks.length →
    (getBlk s b).weakUsages
      = (countRefs s.weak b : Int) + (if 0 < (getBlk s b).usages then 1 else 0)
  destroyC : ∀ b : Nat, b < s.blocks.length →
    (getBlk s b).destroyCount
      = if (getBlk s b).usages = 0 ∧ (getBlk s b).payloadPtr.isSome then 1 else 0
  freeC : ∀ b : Nat, b < s.blocks.length →
    (getBlk s b).freeCount = if (getBlk s b).weakUsages = 0 then 1 else 0

theorem inv_init : Inv State.init := by
  refine ⟨?_, ?_, ?_, ?_, ?_, ?_⟩ <;> intro b hb <;> simp [State.init] at hb ⊢

/-- Copying an owning handle: push a reference to block `b` and bump its
strong count. -/
theorem inv_pushRetain (s : State) (h : Inv s) (b : Nat)
    (hb : b < s.blocks.length) (hu : 0 < (getBlk s b).usages) :
    Inv (pushShared (retainStrong s (some b)) (some b)) := by
  have hlen : (retainStrong s (some b)).blocks.length = s.blocks.length := by simp
  refine ⟨?_, ?_, ?_, ?_, ?_, ?_⟩
  · intro b' hb'
    simp only [pushShared_shared, retainStrong_shared, List.mem_append,
      List.mem_singleton, Option.some_inj] at hb'
    rw [pushShared_blocks, hlen]
    rcases hb' with hmem | rfl
    · exact h.validS b' hmem
    · exact hb
  · intro b' hb'
    simp only [pushShared_weak, retainStrong_weak] at hb'
    rw [pushShared_blocks, hlen]
    exact h.validW b' hb'
  · intro b' hb'
    rw [pushShared_blocks, hlen] at hb'
    rw [getBlk_pushShared, pushShared_shared, retainStrong_shared,
      countRefs_push]
    by_cases e : b = b'
    · subst e
      rw [getBlk_retainStrong_self s b hb, h.strong b hb']
      simp
    · rw [getBlk_retainStrong_ne s b b' e, h.strong b' hb', if_neg]
      · simp
      · exact fun ee => e (Option.some_inj.mp ee)
  · intro b' hb'
    rw [pushShared_blocks, hlen] at hb'
    rw [getBlk_pushShared, pushShared_weak, retainStrong_weak]
    by_cases e : b = b'
    · subst e
      rw [getBlk_retainStrong_self s b hb]
      have := h.weakC b hb'
      simp only at this ⊢
      rw [this, if_pos hu, if_pos (by omega)]
    · rw [getBlk_retainStrong_ne s b b' e]
      exact h.weakC b' hb'
  · intro b' hb'
    rw [pushShared_blocks, hlen] at hb'
    rw [getBlk_pushShared]
    by_cases e : b = b'
    · subst e
      rw [getBlk_retainStrong_self s b hb]
      have := h.destroyC b hb'
      simp only at this ⊢
      rw [this, if_neg (by omega), if_neg (by push_neg; intro hh; omega)]
    · rw [getBlk_retainStrong_ne s b b' e]
      exact h.destroyC b' hb'
  · intro b' hb'
    rw [pushShared_blocks, hlen] at hb'
    rw [getBlk_pushShared]
    by_cases e : b = b'
    · subst e
      rw [getBlk_retainStrong_self s b hb]
      exact h.freeC b hb'
    · rw [getBlk_retainStrong_ne s b b' e]
      exact h.freeC b' hb'

theorem finishCB_usages (c : CB) : (finishCB c).usages = c.usages - 1 := by
  simp only [finishCB]
  split
  · split <;> rfl
  · rfl

theorem finishCB_payloadPtr (c : CB) : (finishCB c).payloadPtr = c.payloadPtr := by
  simp only [finishCB]
  split
  · split <;> rfl
  · rfl

theorem finishCB_weakUsages (c : CB) :
    (finishCB c).weakUsages
      = if c.usages - 1 = 0 then c.weakUsages - 1 else c.weakUsages := by
  simp only [finishCB]
  split
  · split <;> simp_all
  · simp_all

theorem finishCB_destroyCount (c : CB) :
    (finishCB c).destroyCount
      = if c.usages - 1 = 0
        then c.destroyCount + (if c.payloadPtr.isSome then 1 else 0)
        else c.destroyCount := by
  simp only [finishCB]
  split
  · split <;> simp_all
  · simp_all

theorem finishCB_freeCount (c : CB) :
    (finishCB c).freeCount
      = if c.usages - 1 = 0 ∧ c.weakUsages - 1 = 0
        then c.freeCount + 1 else c.freeCount := by
  simp only [finishCB]
  split
  · split <;> simp_all
  · simp_all

theorem releaseWeakCB_usages (c : CB) : (releaseWeakCB c).usages = c.usages := by
  simp only [releaseWeakCB]
  split <;> rfl

theorem releaseWeakCB_payloadPtr (c : CB) :
    (releaseWeakCB c).payloadPtr = c.payloadPtr := by
  simp only [releaseWeakCB]
  split <;> rfl

theorem releaseWeakCB_destroyCount (c : CB) :
    (releaseWeakCB c).destroyCount = c.destroyCount := by
  simp only [releaseWeakCB]
  split <;> rfl

theorem releaseWeakCB_weakUsages (c : CB) :
    (releaseWeakCB c).weakUsages = c.weakUsages - 1 := by
  simp only [releaseWeakCB]
  split <;> rfl

theorem releaseWeakCB_freeCount (c : CB) :
    (releaseWeakCB c).freeCount
      = if c.weakUsages - 1 = 0 then c.freeCount + 1 else c.freeCount := by
  simp only [releaseWeakCB]
  split <;> simp_all

/-- Copying an empty owning handle: push `none`, no counter changes. -/
theorem inv_pushNone (s : State) (h : Inv s) : Inv (pushShared s none) := by
  refine ⟨?_, ?_, ?_, ?_, ?_, ?_⟩
  · intro b hb
    simp only [pushShared_shared, List.mem_append, List.mem_singleton] at hb
    rcases hb with hb | hb
    · exact h.validS b hb
    · cases hb
  · intro b hb
    exact h.validW b hb
  · intro b hb
    rw [getBlk_pushShared, pushShared_shared, countRefs_push, if_neg (by simp)]
    exact h.strong b hb
  · intro b hb
    exact h.weakC b hb
  · intro b hb
    exact h.destroyC b hb
  · intro b hb
    exact h.freeC b hb

theorem inv_copySharedF (s : State) (h : Inv s) (i : Nat) : Inv (copySharedF s i) := by
  unfold copySharedF
  split
  · rename_i hi
    rcases hv : s.shared.getD i none with _ | b
    · have : retainStrong s none = s := rfl
      rw [this]
      exact inv_pushNone s h
    · have hb : b < s.blocks.length := h.validS b (hv ▸ getD_mem s.shared i hi)
      have hcr : 0 < countRefs s.shared b := countRefs_pos s.shared i b hi hv
      have hu : 0 < (getBlk s b).usages := by
        rw [h.strong b hb]
        exact_mod_cast hcr
      exact inv_pushRetain s h b hb hu
  · exact h

theorem inv_moveSharedF (s : State) (h : Inv s) (i : Nat) : Inv (moveSharedF s i) := by
  unfold moveSharedF
  split
  · rename_i hi
    have hvmem : s.shared.getD i none ∈ s.shared := getD_mem s.shared i hi
    refine ⟨?_, ?_, ?_, ?_, ?_, ?_⟩
    · intro b hb
      simp only [pushShared_shared, setShared_shared, List.mem_append,
        List.mem_singleton] at hb
      rw [pushShared_blocks, setShared_blocks]
      rcases hb with hb | hb
      · rcases List.mem_or_eq_of_mem_set hb with hb | hb
        · exact h.validS b hb
        · cases hb
      · exact h.validS b (hb ▸ hvmem)
    · intro b hb
      exact h.validW b hb
    · intro b hb
      rw [pushShared_blocks, setShared_blocks] at hb
      have hset := countRefs_set s.shared i none b hi
      have hz : (if (none : Option Nat) = some b then (1 : Nat) else 0) = 0 :=
        if_neg (by simp)
      rw [hz] at hset
      rw [getBlk_pushShared, getBlk_setShared, pushShared_shared, setShared_shared,
        countRefs_push, h.strong b hb]
      omega
    · intro b hb
      exact h.weakC b hb
    · intro b hb
      exact h.destroyC b hb
    · intro b hb
      exact h.freeC b hb
  · exact h

theorem inv_swapSlots (s : State) (h : Inv s) (i j : Nat)
    (hi : i < s.shared.length) (hj : j < s.shared.length) : Inv (swapSlots s i j) := by
  have hvi : s.shared.getD i none ∈ s.shared := getD_mem s.shared i hi
  have hvj : s.shared.getD j none ∈ s.shared := getD_mem s.shared j hj
  have hj1 : j < (s.shared.set i (s.shared.getD j none)).length := by
    simpa using hj
  have hgj : (s.shared.set i (s.shared.getD j none)).getD j none
      = s.shared.getD j none := by
    by_cases e : i = j
    · subst e
      exact getD_set_self _ none s.shared i hi
    · exact getD_set_ne _ none s.shared i j e
  refine ⟨?_, ?_, ?_, ?_, ?_, ?_⟩
  · intro b hb
    simp only [swapSlots, setShared_shared, setShared_blocks] at hb ⊢
    rcases List.mem_or_eq_of_mem_set hb with hb | hb
    · rcases List.mem_or_eq_of_mem_set hb with hb | hb
      · exact h.validS b hb
      · exact h.validS b (hb ▸ hvj)
    · exact h.validS b (hb ▸ hvi)
  · intro b hb
    exact h.validW b hb
  · intro b hb
    simp only [swapSlots, setShared_blocks] at hb
    have h1 := countRefs_set s.shared i (s.shared.getD j none) b hi
    have h2 := countRefs_set (s.shared.set i (s.shared.getD j none)) j
      (s.shared.getD i none) b hj1
    rw [hgj] at h2
    simp only [swapSlots, getBlk_setShared, setShared_shared]
    rw [h.strong b hb]
    omega
  · intro b hb
    exact h.weakC b hb
  · intro b hb
    exact h.destroyC b hb
  · intro b hb
    exact h.freeC b hb

theorem inv_dropSharedF (s : State) (h : Inv s) (i : Nat) : Inv (dropSharedF s i) := by
  unfold dropSharedF
  split
  · rename_i hi
    rcases hv : s.shared.getD i none with _ | b0
    · -- destroying an empty handle: `finish_one_instance_` returns at once
      refine ⟨?_, ?_, ?_, ?_, ?_, ?_⟩
      · intro b hb
        simp only [eraseShared_shared, finishOne_shared] at hb
        exact h.validS b (List.eraseIdx_subset _ _ hb)
      · intro b hb
        exact h.validW b hb
      · intro b hb
        simp only [eraseShared_blocks, finishOne_blocks_length] at hb
        have herase := countRefs_eraseIdx s.shared i b hi
        have hz : (if s.shared.getD i none = some b then (1 : Nat) else 0) = 0 := by
          rw [hv]
          simp
        rw [hz, Nat.add_zero] at herase
        simp only [getBlk_eraseShared, getBlk_finishOne_none, eraseShared_shared,
          finishOne_shared, herase]
        exact h.strong b hb
      · intro b hb
        exact h.weakC b hb
      · intro b hb
        exact h.destroyC b hb
      · intro b hb
        exact h.freeC b hb
    · -- destroying a non-empty handle: one strong release on its block
      have hb0 : b0 < s.blocks.length := h.validS b0 (hv ▸ getD_mem s.shared i hi)
      have hcr : 0 < countRefs s.shared b0 := countRefs_pos s.shared i b0 hi hv
      have hu := h.strong b0 hb0
      have hupos : 0 < (getBlk s b0).usages := by
        rw [hu]
        exact_mod_cast hcr
      have hw := h.weakC b0 hb0
      have hd := h.destroyC b0 hb0
      have hf := h.freeC b0 hb0
      have hwu1 : (1 : Int) ≤ (getBlk s b0).weakUsages := by
        have hcw : (0 : Int) ≤ (countRefs s.weak b0 : Int) := Int.natCast_nonneg _
        rw [hw, if_pos hupos]
        omega
      have hd0 : (getBlk s b0).destroyCount = 0 := by
        rw [hd, if_neg]
        push_neg
        intro hz
        omega
      have hf0 : (getBlk s b0).freeCount = 0 := by
        rw [hf, if_neg (by omega)]
      have herase := countRefs_eraseIdx s.shared i b0 hi
      rw [hv, if_pos rfl] at herase
      refine ⟨?_, ?_, ?_, ?_, ?_, ?_⟩
      · intro b hb
        simp only [eraseShared_shared, finishOne_shared] at hb
        have := h.validS b (List.eraseIdx_subset _ _ hb)
        simpa using this
      · intro b hb
        simp only [eraseShared_weak, finishOne_weak] at hb
        have := h.validW b hb
        simpa using this
      · intro b hb
        simp only [eraseShared_blocks, finishOne_blocks_length] at hb
        simp only [getBlk_eraseShared, eraseShared_shared, finishOne_shared]
        by_cases e : b0 = b
        · subst e
          simp only [getBlk_finishOne_self s b0 hb0, finishCB_usages, hu]
          omega
        · simp only [getBlk_finishOne_ne s b0 b e]
          have herase2 := countRefs_eraseIdx s.shared i b hi
          have hz : (if s.shared.getD i none = some b then (1 : Nat) else 0) = 0 := by
            rw [hv, if_neg (fun ee => e (Option.some_inj.mp ee))]
          rw [hz, Nat.add_zero] at herase2
          rw [herase2]
          exact h.strong b hb
      · intro b hb
        simp only [eraseShared_blocks, finishOne_blocks_length] at hb
        simp only [getBlk_eraseShared, eraseShared_weak, finishOne_weak]
        by_cases e : b0 = b
        · subst e
          simp only [getBlk_finishOne_self s b0 hb0]
          have e1 := finishCB_usages (getBlk s b0)
          have e2 := finishCB_weakUsages (getBlk s b0)
          by_cases h1 : (getBlk s b0).usages - 1 = 0
          · rw [if_pos h1] at e2
            have e3 : (if 0 < (finishCB (getBlk s b0)).usages then (1 : Int) else 0) = 0 := by
              rw [e1]
              exact if_neg (by omega)
            rw [e2, e3, hw, if_pos hupos]
            omega
          · rw [if_neg h1] at e2
            have e3 : (if 0 < (finishCB (getBlk s b0)).usages then (1 : Int) else 0) = 1 := by
              rw [e1]
              exact if_pos (by omega)
            rw [e2, e3, hw, if_pos hupos]
        · simp only [getBlk_finishOne_ne s b0 b e]
          exact h.weakC b hb
      · intro b hb
        simp only [eraseShared_blocks, finishOne_blocks_length] at hb
        simp only [getBlk_eraseShared]
        by_cases e : b0 = b
        · subst e
          simp only [getBlk_finishOne_self s b0 hb0]
          have e1 := finishCB_usages (getBlk s b0)
          have e5 := finishCB_payloadPtr (getBlk s b0)
          have e4 := finishCB_destroyCount (getBlk s b0)
          by_cases h1 : (getBlk s b0).usages - 1 = 0
          · rw [if_pos h1] at e4
            by_cases hp : (getBlk s b0).payloadPtr.isSome
            · rw [if_pos hp] at e4
              have ec : (if (finishCB (getBlk s b0)).usages = 0 ∧
                  (finishCB (getBlk s b0)).payloadPtr.isSome then (1 : Nat) else 0) = 1 := by
                refine if_pos ⟨?_, ?_⟩
                · rw [e1]
                  exact h1
                · rw [e5]
                  exact hp
              rw [e4, ec, hd0]
            · rw [if_neg hp] at e4
              have ec : (if (finishCB (getBlk s b0)).usages = 0 ∧
                  (finishCB (getBlk s b0)).payloadPtr.isSome then (1 : Nat) else 0) = 0 := by
                refine if_neg ?_
                intro hc
                obtain ⟨hc1, hc2⟩ := hc
                rw [e5] at hc2
                exact hp hc2
              rw [e4, ec, hd0]
          · rw [if_neg h1] at e4
            have ec : (if (finishCB (getBlk s b0)).usages = 0 ∧
                (finishCB (getBlk s b0)).payloadPtr.isSome then (1 : Nat) else 0) = 0 := by
              refine if_neg ?_
              intro hc
              obtain ⟨hc1, hc2⟩ := hc
              rw [e1] at hc1
              exact h1 hc1
            rw [e4, ec, hd0]
        · simp only [getBlk_finishOne_ne s b0 b e]
          exact h.destroyC b hb
      · intro b hb
        simp only [eraseShared_blocks, finishOne_blocks_length] at hb
        simp only [getBlk_eraseShared]
        by_cases e : b0 = b
        · subst e
          simp only [getBlk_finishOne_self s b0 hb0]
          have e2 := finishCB_weakUsages (getBlk s b0)
          have e6 := finishCB_freeCount (getBlk s b0)
          by_cases h1 : (getBlk s b0).usages - 1 = 0
          · rw [if_pos h1] at e2
            by_cases h2 : (getBlk s b0).weakUsages - 1 = 0
            · rw [if_pos ⟨h1, h2⟩] at e6
              have ec : (if (finishCB (getBlk s b0)).weakUsages = 0
                  then (1 : Nat) else 0) = 1 := by
                refine if_pos ?_
                rw [e2]
                exact h2
              rw [e6, ec, hf0]
            · rw [if_neg (fun hc => h2 hc.2)] at e6
              have ec : (if (finishCB (getBlk s b0)).weakUsages = 0
                  then (1 : Nat) else 0) = 0 := by
                refine if_neg ?_
                intro hc
                rw [e2] at hc
                exact h2 hc
              rw [e6, ec, hf0]
          · rw [if_neg h1] at e2
            rw [if_neg (fun hc => h1 hc.1)] at e6
            have ec : (if (finishCB (getBlk s b0)).weakUsages = 0
                then (1 : Nat) else 0) = 0 := by
              refine if_neg ?_
              intro hc
              rw [e2] at hc
              omega
            rw [e6, ec, hf0]
        · simp only [getBlk_finishOne_ne s b0 b e]
          exact h.freeC b hb
  · exact h

/-- Constructing an observing handle from an empty source: push `none`,
no counter changes. -/
theorem inv_pushWeakNone (s : State) (h : Inv s) : Inv (pushWeak s none) := by
  refine ⟨?_, ?_, ?_, ?_, ?_, ?_⟩
  · intro b hb
    exact h.validS b hb
  · intro b hb
    simp only [pushWeak_weak, List.mem_append, List.mem_singleton] at hb
    rcases hb with hb | hb
    · exact h.validW b hb
    · cases hb
  · intro b hb
    exact h.strong b hb
  · intro b hb
    rw [getBlk_pushWeak, pushWeak_weak, countRefs_push, if_neg (by simp)]
    exact h.weakC b hb
  · intro b hb
    exact h.destroyC b hb
  · intro b hb
    exact h.freeC b hb

/-- Constructing or copying an observing handle of block `b`: push a weak
reference and bump the weak count. -/
theorem inv_pushWeakRetain (s : State) (h : Inv s) (b : Nat)
    (hb : b < s.blocks.length) (hwpos : 0 < (getBlk s b).weakUsages) :
    Inv (pushWeak (retainWeak s (some b)) (some b)) := by
  have hlen : (retainWeak s (some b)).blocks.length = s.blocks.length := by simp
  refine ⟨?_, ?_, ?_, ?_, ?_, ?_⟩
  · intro b' hb'
    simp only [pushWeak_shared, retainWeak_shared] at hb'
    rw [pushWeak_blocks, hlen]
    exact h.validS b' hb'
  · intro b' hb'
    simp only [pushWeak_weak, retainWeak_weak, List.mem_append,
      List.mem_singleton, Option.some_inj] at hb'
    rw [pushWeak_blocks, hlen]
    rcases hb' with hmem | rfl
    · exact h.validW b' hmem
    · exact hb
  · intro b' hb'
    rw [pushWeak_blocks, hlen] at hb'
    rw [getBlk_pushWeak, pushWeak_shared, retainWeak_shared]
    by_cases e : b = b'
    · subst e
      rw [getBlk_retainWeak_self s b hb]
      exact h.strong b hb'
    · rw [getBlk_retainWeak_ne s b b' e]
      exact h.strong b' hb'
  · intro b' hb'
    rw [pushWeak_blocks, hlen] at hb'
    rw [getBlk_pushWeak, pushWeak_weak, retainWeak_weak, countRefs_push]
    by_cases e : b = b'
    · subst e
      rw [getBlk_retainWeak_self s b hb, if_pos rfl]
      have := h.weakC b hb'
      simp only at this ⊢
      rw [this]
      push_cast
      ring
    · rw [getBlk_retainWeak_ne s b b' e,
        if_neg (fun ee => e (Option.some_inj.mp ee)), Nat.add_zero]
      exact h.weakC b' hb'
  · intro b' hb'
    rw [pushWeak_blocks, hlen] at hb'
    rw [getBlk_pushWeak]
    by_cases e : b = b'
    · subst e
      rw [getBlk_retainWeak_self s b hb]
      exact h.destroyC b hb'
    · rw [getBlk_retainWeak_ne s b b' e]
      exact h.destroyC b' hb'
  · intro b' hb'
    rw [pushWeak_blocks, hlen] at hb'
    rw [getBlk_pushWeak]
    by_cases e : b = b'
    · subst e
      rw [getBlk_retainWeak_self s b hb]
      have := h.freeC b hb'
      simp only at this ⊢
      rw [this, if_neg (by omega), if_neg (by omega)]
    · rw [getBlk_retainWeak_ne s b b' e]
      exact h.freeC b' hb'

theorem inv_mkWeakF (s : State) (h : Inv s) (i : Nat) : Inv (mkWeakF s i) := by
  unfold mkWeakF
  split
  · rename_i hi
    rcases hv : s.shared.getD i none with _ | b
    · have : retainWeak s none = s := rfl
      rw [this]
      exact inv_pushWeakNone s h
    · have hb : b < s.blocks.length := h.validS b (hv ▸ getD_mem s.shared i hi)
      have hcr : 0 < countRefs s.shared b := countRefs_pos s.shared i b hi hv
      have hupos : 0 < (getBlk s b).usages := by
        rw [h.strong b hb]
        exact_mod_cast hcr
      have hwpos : 0 < (getBlk s b).weakUsages := by
        rw [h.weakC b hb, if_pos hupos]
        have : (0 : Int) ≤ (countRefs s.weak b : Int) := Int.natCast_nonneg _
        omega
      exact inv_pushWeakRetain s h b hb hwpos
  · exact h

theorem inv_copyWeakF (s : State) (h : Inv s) (j : Nat) : Inv (copyWeakF s j) := by
  unfold copyWeakF
  split
  · rename_i hj
    rcases hv : s.weak.getD j none with _ | b
    · have : retainWeak s none = s := rfl
      rw [this]
      exact inv_pushWeakNone s h
    · have hb : b < s.blocks.length := h.validW b (hv ▸ getD_mem s.weak j hj)
      have hcw : 0 < countRefs s.weak b := countRefs_pos s.weak j b hj hv
      have hwpos : 0 < (getBlk s b).weakUsages := by
        rw [h.weakC b hb]
        have h1 : (0 : Int) ≤ if 0 < (getBlk s b).usages then 1 else 0 := by
          split <;> omega
        have h2 : (1 : Int) ≤ (countRefs s.weak b : Int) := by exact_mod_cast hcw
        omega
      exact inv_pushWeakRetain s h b hb hwpos
  · exact h

theorem inv_dropWeakF (s : State) (h : Inv s) (j : Nat) : Inv (dropWeakF s j) := by
  unfold dropWeakF
  split
  · rename_i hj
    rcases hv : s.weak.getD j none with _ | b0
    · refine ⟨?_, ?_, ?_, ?_, ?_, ?_⟩
      · intro b hb
        exact h.validS b hb
      · intro b hb
        simp only [eraseWeak_weak, releaseWeakOne_weak] at hb
        exact h.validW b (List.eraseIdx_subset _ _ hb)
      · intro b hb
        exact h.strong b hb
      · intro b hb
        simp only [eraseWeak_blocks, releaseWeakOne_blocks_length] at hb
        have herase := countRefs_eraseIdx s.weak j b hj
        have hz : (if s.weak.getD j none = some b then (1 : Nat) else 0) = 0 := by
          rw [hv]
          simp
        rw [hz, Nat.add_zero] at herase
        simp only [getBlk_eraseWeak, getBlk_releaseWeakOne_none, eraseWeak_weak,
          releaseWeakOne_weak, herase]
        exact h.weakC b hb
      · intro b hb
        exact h.destroyC b hb
      · intro b hb
        exact h.freeC b hb
    · have hb0 : b0 < s.blocks.length := h.validW b0 (hv ▸ getD_mem s.weak j hj)
      have hcw : 0 < countRefs s.weak b0 := countRefs_pos s.weak j b0 hj hv
      have hw := h.weakC b0 hb0
      have hf := h.freeC b0 hb0
      have hwpos : 0 < (getBlk s b0).weakUsages := by
        rw [hw]
        have h1 : (0 : Int) ≤ if 0 < (getBlk s b0).usages then 1 else 0 := by
          split <;> omega
        have h2 : (1 : Int) ≤ (countRefs s.weak b0 : Int) := by exact_mod_cast hcw
        omega
      have hf0 : (getBlk s b0).freeCount = 0 := by
        rw [hf, if_neg (by omega)]
      have herase := countRefs_eraseIdx s.weak j b0 hj
      rw [hv, if_pos rfl] at herase
      refine ⟨?_, ?_, ?_, ?_, ?_, ?_⟩
      · intro b hb
        simp only [eraseWeak_shared, releaseWeakOne_shared] at hb
        have := h.validS b hb
        simpa using this
      · intro b hb
        simp only [eraseWeak_weak, releaseWeakOne_weak] at hb
        have := h.validW b (List.eraseIdx_subset _ _ hb)
        simpa using this
      · intro b hb
        simp only [eraseWeak_blocks, releaseWeakOne_blocks_length] at hb
        simp only [getBlk_eraseWeak, eraseWeak_shared, releaseWeakOne_shared]
        by_cases e : b0 = b
        · subst e
          simp only [getBlk_releaseWeakOne_self s b0 hb0, releaseWeakCB_usages]
          exact h.strong b0 hb
        · simp only [getBlk_releaseWeakOne_ne s b0 b e]
          exact h.strong b hb
      · intro b hb
        simp only [eraseWeak_blocks, releaseWeakOne_blocks_length] at hb
        simp only [getBlk_eraseWeak, eraseWeak_weak, releaseWeakOne_weak]
        by_cases e : b0 = b
        · subst e
          simp only [getBlk_releaseWeakOne_self s b0 hb0, releaseWeakCB_usages,
            releaseWeakCB_weakUsages]
          rw [hw]
          omega
        · simp only [getBlk_releaseWeakOne_ne s b0 b e]
          have herase2 := countRefs_eraseIdx s.weak j b hj
          have hz : (if s.weak.getD j none = some b then (1 : Nat) else 0) = 0 := by
            rw [hv, if_neg (fun ee => e (Option.some_inj.mp ee))]
          rw [hz, Nat.add_zero] at herase2
          rw [herase2]
          exact h.weakC b hb
      · intro b hb
        simp only [eraseWeak_blocks, releaseWeakOne_blocks_length] at hb
        simp only [getBlk_eraseWeak]
        by_cases e : b0 = b
        · subst e
          simp only [getBlk_releaseWeakOne_self s b0 hb0, releaseWeakCB_usages,
            releaseWeakCB_payloadPtr, releaseWeakCB_destroyCount]
          exact h.destroyC b0 hb
        · simp only [getBlk_releaseWeakOne_ne s b0 b e]
          exact h.destroyC b hb
      · intro b hb
        simp only [eraseWeak_blocks, releaseWeakOne_blocks_length] at hb
        simp only [getBlk_eraseWeak]
        by_cases e : b0 = b
        · subst e
          simp only [getBlk_releaseWeakOne_self s b0 hb0]
          have e2 := releaseWeakCB_weakUsages (getBlk s b0)
          have e6 := releaseWeakCB_freeCount (getBlk s b0)
          by_cases h2 : (getBlk s b0).weakUsages - 1 = 0
          · rw [if_pos h2] at e6
            have ec : (if (releaseWeakCB (getBlk s b0)).weakUsages = 0
                then (1 : Nat) else 0) = 1 := by
              refine if_pos ?_
              rw [e2]
              exact h2
            rw [e6, ec, hf0]
          · rw [if_neg h2] at e6
            have ec : (if (releaseWeakCB (getBlk s b0)).weakUsages = 0
                then (1 : Nat) else 0) = 0 := by
              refine if_neg ?_
              intro hc
              rw [e2] at hc
              exact h2 hc
            rw [e6, ec, hf0]
        · simp only [getBlk_releaseWeakOne_ne s b0 b e]
          exact h.freeC b hb
  · exact h

theorem inv_newBlock (s : State) (h : Inv s) (p : Option Nat) :
    Inv (newBlock s p) := by
  have hnotS : some s.blocks.length ∉ s.shared := by
    intro hmem
    exact absurd (h.validS _ hmem) (by omega)
  have hnotW : some s.blocks.length ∉ s.weak := by
    intro hmem
    exact absurd (h.validW _ hmem) (by omega)
  refine ⟨?_, ?_, ?_, ?_, ?_, ?_⟩
  · intro b hb
    simp only [newBlock_shared, List.mem_append, List.mem_singleton,
      Option.some_inj] at hb
    rw [newBlock_blocks_length]
    rcases hb with hb | rfl
    · exact Nat.lt_succ_of_lt (h.validS b hb)
    · exact Nat.lt_succ_self _
  · intro b hb
    rw [newBlock_weak] at hb
    rw [newBlock_blocks_length]
    exact Nat.lt_succ_of_lt (h.validW b hb)
  · intro b hb
    rw [newBlock_blocks_length] at hb
    rw [newBlock_shared, countRefs_push]
    rcases Nat.lt_succ_iff_lt_or_eq.mp hb with hb' | rfl
    · have hne : ¬(some s.blocks.length = some b) := by
        intro ee
        have := Option.some_inj.mp ee
        omega
      rw [getBlk_newBlock_lt s p b hb', if_neg hne, Nat.add_zero]
      exact h.strong b hb'
    · rw [getBlk_newBlock_self, if_pos rfl,
        countRefs_eq_zero s.shared _ hnotS]
      rfl
  · intro b hb
    rw [newBlock_blocks_length] at hb
    rw [newBlock_weak]
    rcases Nat.lt_succ_iff_lt_or_eq.mp hb with hb' | rfl
    · simp only [getBlk_newBlock_lt s p b hb']
      exact h.weakC b hb'
    · simp only [getBlk_newBlock_self, countRefs_eq_zero s.weak _ hnotW]
      simp [CB.mk1]
  · intro b hb
    rw [newBlock_blocks_length] at hb
    rcases Nat.lt_succ_iff_lt_or_eq.mp hb with hb' | rfl
    · simp only [getBlk_newBlock_lt s p b hb']
      exact h.destroyC b hb'
    · simp only [getBlk_newBlock_self]
      simp [CB.mk1]
  · intro b hb
    rw [newBlock_blocks_length] at hb
    rcases Nat.lt_succ_iff_lt_or_eq.mp hb with hb' | rfl
    · simp only [getBlk_newBlock_lt s p b hb']
      exact h.freeC b hb'
    · simp only [getBlk_newBlock_self]
      simp [CB.mk1]

/-- Run sequentially (no interference, as in a single-threaded execution),
the compare-exchange loop increments the counter by exactly one: the first
CAS succeeds, the second fails against the new value and exits the loop. -/
theorem casLoop_seq (u : Int) (hu : u ≠ 0) : casLoop [] u u = Except.ok (u + 1, 1) := by
  rw [casLoop]
  simp [hu]

theorem casLoop_zero : casLoop [] 0 0 = Except.error () := by
  rw [casLoop]
  simp

theorem inv_lockW (s : State) (h : Inv s) (j : Nat) : Inv (lockW s j) := by
  unfold lockW
  split
  · exact inv_pushNone s h
  · rename_i hexp
    rcases hv : s.weak.getD j none with _ | b
    · exfalso
      apply hexp
      unfold expiredAt
      rw [hv]
    · have hne : (getBlk s b).usages ≠ 0 := by
        intro hz
        apply hexp
        unfold expiredAt
        rw [hv]
        simp [hz]
      have hsfw : sharedFromWeak s j
          = Except.ok (pushShared (retainStrong s (some b)) (some b)) := by
        simp only [sharedFromWeak, hv, casLoop_seq _ hne]
      rw [hsfw]
      have hb : b < s.blocks.length := by
        rcases Nat.lt_or_ge j s.weak.length with hj | hj
        · exact h.validW b (hv ▸ getD_mem s.weak j hj)
        · rw [List.getD_eq_default _ _ hj] at hv
          cases hv
      have hupos : 0 < (getBlk s b).usages := by
        rw [h.strong b hb]
        rw [h.strong b hb] at hne
        have : countRefs s.shared b ≠ 0 := by
          intro hz
          rw [hz] at hne
          exact hne rfl
        exact_mod_cast Nat.pos_of_ne_zero this
      exact inv_pushRetain s h b hb hupos

theorem copySharedF_shared_length (s : State) (i : Nat) (hi : i < s.shared.length) :
    (copySharedF s i).shared.length = s.shared.length + 1 := by
  simp [copySharedF, hi]

theorem moveSharedF_shared_length (s : State) (i : Nat) (hi : i < s.shared.length) :
    (moveSharedF s i).shared.length = s.shared.length + 1 := by
  simp [moveSharedF, hi]

/-- Every public operation preserves the counting invariant. -/
theorem inv_apply (s : State) (h : Inv s) (op : Op) : Inv (apply s op) := by
  cases op with
  | mkShared p =>
    cases p with
    | none => exact inv_pushNone s h
    | some q => exact inv_newBlock s h (some q)
  | mkFromUnique p => exact inv_newBlock s h p
  | copyShared i => exact inv_copySharedF s h i
  | moveShared i => exact inv_moveSharedF s h i
  | assign dst src =>
    simp only [apply]
    split
    · rename_i hlt
      obtain ⟨hdst, hsrc⟩ := hlt
      have h1 : Inv (copySharedF s src) := inv_copySharedF s h src
      have hlen := copySharedF_shared_length s src hsrc
      have h2 : Inv (swapSlots (copySharedF s src) dst s.shared.length) :=
        inv_swapSlots _ h1 dst s.shared.length (by omega) (by omega)
      exact inv_dropSharedF _ h2 s.shared.length
    · exact h
  | moveAssign dst src =>
    simp only [apply]
    split
    · rename_i hlt
      obtain ⟨hdst, hsrc⟩ := hlt
      have h1 : Inv (moveSharedF s src) := inv_moveSharedF s h src
      have hlen := moveSharedF_shared_length s src hsrc
      have h2 : Inv (swapSlots (moveSharedF s src) dst s.shared.length) :=
        inv_swapSlots _ h1 dst s.shared.length (by omega) (by omega)
      exact inv_dropSharedF _ h2 s.shared.length
    · exact h
  | dropShared i => exact inv_dropSharedF s h i
  | mkWeak i => exact inv_mkWeakF s h i
  | copyWeak j => exact inv_copyWeakF s h j
  | dropWeak j => exact inv_dropWeakF s h j
  | lockWeak j =>
    simp only [apply]
    split
    · exact inv_lockW s h j
    · exact h

theorem inv_foldl (ops : List Op) (s : State) (h : Inv s) :
    Inv (ops.foldl apply s) := by
  induction ops generalizing s with
  | nil => exact h
  | cons op rest ih => exact ih (apply s op) (inv_apply s h op)

/-- The counting invariant holds after any sequence of public operations. -/
theorem inv_run (ops : List Op) : Inv (run ops) :=
  inv_foldl ops State.init inv_init

/-! ### Equality and ordering of owning handles (C4) -/

/-- `operator==(const shared_ptr&, const shared_ptr&)`
(src/shared_ptr.h lines 139–142): `lhs.get() == rhs.get()` — it compares the
raw payload pointers, not the control-block pointers. -/
def eqShared (s : State) (i j : Nat) : Bool :=
  getPtr s i == getPtr s j

/-- `operator!=`: `!(lhs == rhs)`. -/
def neShared (s : State) (i j : Nat) : Bool :=
  !(eqShared s i j)

/-- `operator<=>` (src/shared_ptr.h lines 182–186): `lhs.control_ <=>
rhs.control_`, a comparison of the control-block pointers themselves; the
null pointer orders before every allocated block and blocks are ordered by
address. -/
def cmpCtl : Option Nat → Option Nat → Ordering
  | none, none => Ordering.eq
  | none, some _ => Ordering.lt
  | some _, none => Ordering.gt
  | some a, some b => compare a b

def spaceship (s : State) (i j : Nat) : Ordering :=
  cmpCtl (s.shared.getD i none) (s.shared.getD j none)

/-! ### Construction from raw and uniquely-owned pointers (C5) -/

/-- What became of the caller's payload after a construction attempt. -/
inductive PayloadFate where
  /-- there was no payload (null pointer). -/
  | noPayload
  /-- ownership was transferred into the new control block. -/
  | inBlock
  /-- the constructor destroyed it (`delete ptr` in the catch handler). -/
  | destroyed
  /-- the caller's `unique_ptr` still owns it (release() was never reached). -/
  | retainedByCaller
deriving Repr, DecidableEq

structure CtorOut where
  st : State
  fate : PayloadFate
  threw : Bool
deriving Repr, DecidableEq

/-- `shared_ptr(T* ptr)` (src/shared_ptr.h lines 82–91) with an explicit
allocation-success flag: `control_(ptr ? new control_block(ptr) : nullptr)`,
and `catch(...) { delete ptr; throw; }` when the allocation throws. -/
def fromRaw (s : State) (alloc : Bool) (p : Option Nat) : CtorOut :=
  match p with
  | none => ⟨pushShared s none, PayloadFate.noPayload, false⟩
  | some q =>
    if alloc then ⟨newBlock s (some q), PayloadFate.inBlock, false⟩
    else ⟨s, PayloadFate.destroyed, true⟩

/-- `shared_ptr(std::unique_ptr<T>&&)` (src/shared_ptr.h lines 93–96):
`control_(new control_block(ptr.release()))` — the control block is
allocated unconditionally, even for a null unique pointer; if the
allocation throws, `release()` has not yet run and the unique pointer
still owns the payload. -/
def fromUnique (s : State) (alloc : Bool) (p : Option Nat) : CtorOut :=
  if alloc then ⟨newBlock s p, if p.isSome then PayloadFate.inBlock else PayloadFate.noPayload, false⟩
  else ⟨s, if p.isSome then PayloadFate.retainedByCaller else PayloadFate.noPayload, true⟩

/-! ### `reset()` (C2) -/

/-- `shared_ptr::reset()` (src/shared_ptr.h lines 154–158):
`finish_one_instance_(); control_->payload_ = nullptr;` — the payload
pointer of the (shared!) control block is nulled even when other owners
remain, and the write dereferences `control_` unconditionally (`error` here
marks the null dereference of an empty handle). -/
def resetShared (s : State) (i : Nat) : Except Unit State :=
  match s.shared.getD i none with
  | none => Except.error ()
  | some b =>
    let s1 := finishOne s (some b)
    Except.ok (setBlk s1 b { getBlk s1 b with payloadPtr := none })

/-- The spec's payload invariant, as a checkable predicate: every block with
a positive strong count still holds a non-null, not-yet-destroyed payload. -/
def strongImpliesLivePayload (s : State) : Bool :=
  s.blocks.all fun c =>
    decide (c.usages ≤ 0) || (c.payloadPtr.isSome && decide (c.destroyCount = 0))

/-! ### The `weak_ptr` assignment operators (C7)

`weak_ptr::operator=(weak_ptr other)` and `weak_ptr::operator=(weak_ptr&&)`
(src/shared_ptr.h lines 233–243) both delegate to the qualified call
`std::swap(*this, other)`.  A qualified call performs no argument-dependent
lookup, so the friend `swap` of `weak_ptr` (which exchanges the `control_`
fields) is NOT found; the call resolves against the generic `std::swap`,
which is defined as `tmp = move(a); a = move(b); b = move(tmp)`.
`weak_ptr` has no move constructor (declaring the assignment operators
suppresses it), so `tmp = move(a)` falls back to the copy constructor,
and each `x = move(y)` is again `weak_ptr::operator=` — which calls
`std::swap` again.  The recursion has no base case.  The two functions
below model one expansion step each, with a fuel bound; `none` means the
call is still recursing when the fuel runs out. -/

mutual

def wStdSwap : Nat → State → Nat → Nat → Option State
  | 0, _, _, _ => none
  | n + 1, s, x, y =>
    -- tmp := move(x) resolves to the copy constructor: a fresh weak handle
    -- (index s.weak.length) adopting x's control block, weak count bumped.
    let v := s.weak.getD x none
    let s1 := pushWeak (retainWeak s v) v
    match wMoveAssign n s1 x y with
    | none => none
    | some s2 =>
      match wMoveAssign n s2 y s.weak.length with
      | none => none
      | some s3 => some (dropWeakF s3 s.weak.length)

def wMoveAssign : Nat → State → Nat → Nat → Option State
  | 0, _, _, _ => none
  | n + 1, s, a, r => wStdSwap n s a r

end

/-- `weak_ptr::operator=(weak_ptr other)`: the by-value parameter is
copy-constructed, then `std::swap(*this, other)`. -/
def wCopyAssign (fuel : Nat) (s : State) (a b : Nat) : Option State :=
  let v := s.weak.getD b none
  wStdSwap fuel (pushWeak (retainWeak s v) v) a s.weak.length

theorem wStdSwap_none (n : Nat) :
    (∀ s a b, wStdSwap n s a b = none) ∧ (∀ s a b, wMoveAssign n s a b = none) := by
  induction n with
  | zero => exact ⟨fun _ _ _ => rfl, fun _ _ _ => rfl⟩
  | succ n ih =>
    refine ⟨fun s a b => ?_, fun s a b => ?_⟩
    · simp only [wStdSwap, ih.2]
    · simp only [wMoveAssign]
      exact ih.1 _ _ _

theorem getD_eraseIdx_lt {α : Type} (d : α) :
    ∀ (l : List α) (n i : Nat), i < n → (l.eraseIdx n).getD i d = l.getD i d
  | [], _, _, _ => by simp
  | _ :: _, n + 1, 0, _ => rfl
  | _ :: t, n + 1, i + 1, h => getD_eraseIdx_lt d t n i (by omega)
  | _ :: _, 0, _, h => absurd h (by omega)

/-! ### The claims -/

/-- C1: the spec requires promotion to increment `strong_count` by a
compare-and-swap loop that re-reads and retries when another thread changed
the count.  Sequentially the loop in the header does net exactly one
increment (first conjunct), but its `while` condition is inverted: it
retries after a SUCCESSFUL compare-exchange and exits as soon as one fails.
With one interference event (another thread moves the counter from 1 to 2
between the load and the CAS) the constructor completes having performed
zero increments (second conjunct) instead of retrying to a final count of 3;
a zero count throws `bad_weak_ptr` (third conjunct). -/
theorem C1_promotion_cas_loop_exits_on_failure :
    casLoop [] 1 1 = Except.ok (2, 1)
    ∧ casLoop [2] 1 1 = Except.ok (2, 0)
    ∧ casLoop [] 0 0 = Except.error () := by
  decide

/-- C2: the spec's invariant says that while `strong_count > 0` the payload
is valid and dereferenceable.  With two owners of one object the invariant
holds (first conjunct), but calling `reset()` on one owner releases one
stake and then nulls the SHARED control block's payload pointer: the
remaining owner observes `strong_count = 1 > 0` with a null payload pointer,
and the payload object was never destroyed (it leaks). -/
theorem C2_reset_breaks_payload_invariant :
    strongImpliesLivePayload (run [Op.mkShared (some 7), Op.copyShared 0]) = true
    ∧ (resetShared (run [Op.mkShared (some 7), Op.copyShared 0]) 0).map
        strongImpliesLivePayload = Except.ok false
    ∧ (resetShared (run [Op.mkShared (some 7), Op.copyShared 0]) 0).map
        (fun s' => decide (0 < (getBlk s' 0).usages)
          && decide ((getBlk s' 0).payloadPtr = none)
          && decide ((getBlk s' 0).destroyCount = 0)) = Except.ok true := by
  decide

/-- C3: at every point of any sequence of public operations, `use_count()`
of a non-empty owning handle equals exactly the number of live owning
handles referencing its control block, and `use_count()` of an empty handle
is zero. -/
theorem C3_use_count_equals_live_owner_count (ops : List Op) (i : Nat) :
    useCount (run ops) i
      = match (run ops).shared.getD i none with
        | none => 0
        | some b => (countRefs (run ops).shared b : Int) := by
  have h := inv_run ops
  rcases hv : (run ops).shared.getD i none with _ | b
  · simp only [useCount, hv]
  · simp only [useCount, hv]
    have hb : b < (run ops).blocks.length := by
      rcases Nat.lt_or_ge i (run ops).shared.length with hi | hi
      · exact h.validS b (hv ▸ getD_mem _ i hi)
      · rw [List.getD_eq_default _ _ hi] at hv
        cases hv
    exact h.strong b hb

/-- C4 counterexample: two handles that reference DIFFERENT control blocks
(one built from a null unique pointer, so its block's payload pointer is
null; one empty) compare equal under `operator==`, because the operator
compares `get()` (payload pointers), not control-block identity.  The claim
"equal iff same Control Block" is false on this input. -/
theorem C4_counterexample_eq_without_same_block :
    eqShared (run [Op.mkFromUnique none, Op.mkShared none]) 0 1 = true
    ∧ (run [Op.mkFromUnique none, Op.mkShared none]).shared.getD 0 none
        ≠ (run [Op.mkFromUnique none, Op.mkShared none]).shared.getD 1 none := by
  decide

/-- C4 amended: `operator==` compares equal iff the two handles' payload
pointers (`get()`) are equal — payload-pointer identity, which can hold
across distinct control blocks — and `operator!=` is its negation, while
`operator<=>` does order by control-block identity: it yields `eq` iff the
two handles reference the same control block. -/
theorem C4_amended_eq_by_payload_ordering_by_block (s : State) (i j : Nat) :
    (eqShared s i j = true ↔ getPtr s i = getPtr s j)
    ∧ neShared s i j = !eqShared s i j
    ∧ (spaceship s i j = Ordering.eq
        ↔ s.shared.getD i none = s.shared.getD j none) := by
  refine ⟨?_, rfl, ?_⟩
  · simp [eqShared]
  · unfold spaceship cmpCtl
    rcases s.shared.getD i none with _ | a <;> rcases s.shared.getD j none with _ | b
    · simp
    · simp
    · simp
    · simp only [Option.some_inj]
      constructor
      · intro h
        exact Nat.compare_eq_eq.mp h
      · intro h
        exact Nat.compare_eq_eq.mpr h

/-- C5 counterexample: constructing from a null (absent) unique pointer is
NOT equivalent to constructing from a null raw pointer: the unique-pointer
constructor allocates a control block unconditionally and yields a
non-empty handle with `use_count() = 1` and a null payload, while the
raw-pointer constructor yields an empty handle without allocating. -/
theorem C5_counterexample_null_unique_allocates :
    (fromUnique State.init true none).st.blocks.length = 1
    ∧ (fromUnique State.init true none).st.shared.getD 0 none = some 0
    ∧ useCount (fromUnique State.init true none).st 0 = 1
    ∧ (fromRaw State.init true none).st.blocks.length = 0
    ∧ (fromRaw State.init true none).st.shared.getD 0 none = none
    ∧ fromUnique State.init true none ≠ fromRaw State.init true none := by
  decide

/-- C5 amended: for a NON-null pointer the unique-pointer constructor is
equivalent to the raw-pointer constructor (identical resulting state,
ownership consumed into the block, no copy); on allocation failure neither
leaks the payload — the raw constructor's catch handler destroys it, while
the unique constructor leaves ownership with the caller's unique pointer
(`release()` is never reached); but a null unique pointer still allocates
a control block and produces a non-empty handle, unlike the raw
constructor, which produces an empty handle without allocating. -/
theorem C5_amended_unique_ctor_equivalence (s : State) (q : Nat) :
    fromUnique s true (some q) = fromRaw s true (some q)
    ∧ (fromRaw s false (some q)).threw = true
    ∧ (fromRaw s false (some q)).fate = PayloadFate.destroyed
    ∧ (fromUnique s false (some q)).threw = true
    ∧ (fromUnique s false (some q)).fate = PayloadFate.retainedByCaller
    ∧ (fromUnique s true none).st.blocks.length = s.blocks.length + 1
    ∧ (fromUnique s true none).st.shared.getD s.shared.length none
        = some s.blocks.length
    ∧ (fromRaw s true none).st = pushShared s none := by
  refine ⟨rfl, rfl, rfl, rfl, rfl, by simp [fromUnique], ?_, rfl⟩
  simp only [fromUnique, if_pos]
  exact getD_push_len _ _ s.shared

/-- C6 counterexample: constructing an owning handle directly from an EMPTY
observing handle (which is expired: `expired()` is true for the empty
shape) does not raise the distinct "expired reference" error
(`bad_weak_ptr`); the constructor reads `control_->usages_` through the
null `control_` — a null-pointer dereference. -/
theorem C6_counterexample_empty_weak_null_deref :
    expiredAt (run [Op.mkShared none, Op.mkWeak 0]) 0 = true
    ∧ sharedFromWeak (run [Op.mkShared none, Op.mkWeak 0]) 0
        = Except.error PromoteErr.nullDeref
    ∧ sharedFromWeak (run [Op.mkShared none, Op.mkWeak 0]) 0
        ≠ Except.error PromoteErr.badWeakPtr := by
  decide

/-- C6 amended: constructing an owning handle directly from a NON-empty
expired observing handle raises the distinct `bad_weak_ptr` error; from an
empty observing handle it instead dereferences a null pointer (undefined
behaviour, not the expired-reference error); and `lock` never raises — on
an expired source it returns an empty owning handle, and on a live source
it returns exactly the state the promoting constructor produces. -/
theorem C6_amended_promotion_error_behaviour (s : State) (j b : Nat) :
    (s.weak.getD j none = none →
      sharedFromWeak s j = Except.error PromoteErr.nullDeref)
    ∧ (s.weak.getD j none = some b → (getBlk s b).usages = 0 →
      sharedFromWeak s j = Except.error PromoteErr.badWeakPtr)
    ∧ (expiredAt s j = true → lockW s j = pushShared s none)
    ∧ (expiredAt s j = false → ∃ b', s.weak.getD j none = some b'
        ∧ sharedFromWeak s j = Except.ok (lockW s j)) := by
  refine ⟨?_, ?_, ?_, ?_⟩
  · intro hv
    simp only [sharedFromWeak, hv]
  · intro hv hz
    simp only [sharedFromWeak, hv, hz, casLoop_zero]
  · intro hex
    unfold lockW
    rw [if_pos hex]
  · intro hex
    rcases hv : s.weak.getD j none with _ | b'
    · exfalso
      have : expiredAt s j = true := by
        unfold expiredAt
        rw [hv]
      rw [this] at hex
      cases hex
    · have hne : (getBlk s b').usages ≠ 0 := by
        intro hz
        have : expiredAt s j = true := by
          unfold expiredAt
          rw [hv]
          simp [hz]
        rw [this] at hex
        cases hex
      have hsfw : sharedFromWeak s j
          = Except.ok (pushShared (retainStrong s (some b')) (some b')) := by
        simp only [sharedFromWeak, hv, casLoop_seq _ hne]
      have hlw : lockW s j = pushShared (retainStrong s (some b')) (some b') := by
        unfold lockW
        rw [if_neg (by simp [hex]), hsfw]
      exact ⟨b', rfl, by rw [hsfw, hlw]⟩

/-- C7: every use of `weak_ptr` assignment fails to make progress: both
`operator=(weak_ptr other)` and the move assignment delegate to the
qualified call `std::swap(*this, other)`, which does not find the ADL
friend `swap`; the generic `std::swap` is defined through move-assignment,
and `weak_ptr`'s move-assignment again calls `std::swap` — a mutual
recursion with no base case.  For every fuel bound the modelled call is
still recursing, so the assignment never terminates, never retargets the
left-hand handle and never adjusts `weak_count` by a net amount. -/
theorem C7_weak_assignment_never_completes (fuel : Nat) (s : State) (a b : Nat) :
    wCopyAssign fuel s a b = none ∧ wMoveAssign fuel s a b = none := by
  constructor
  · unfold wCopyAssign
    exact (wStdSwap_none fuel).1 _ _ _
  · exact (wStdSwap_none fuel).2 _ _ _

@[simp] theorem finishOne_blocks (s : State) (v : Option Nat) :
    (finishOne s v).blocks = finishBlocks s.blocks v := rfl

/-- C8: whenever releasing an owning handle drives a block's strong count to
zero, the payload is destroyed exactly once (`destroyCount = 1` precisely
when the strong count is zero and there was a payload to destroy, and never
more than once); the weak count then follows the seed-to-1 convention
(`weak_usages` = live observing handles + 1 while strong owners remain);
and the control block is freed exactly once, precisely when the weak count
reaches zero — which can be strictly later, at the last observing handle's
release. -/
theorem C8_last_release_destroys_once_frees_once (ops : List Op) (b : Nat)
    (hb : b < (run ops).blocks.length) :
    (getBlk (run ops) b).destroyCount ≤ 1
    ∧ ((getBlk (run ops) b).destroyCount = 1
        ↔ (getBlk (run ops) b).usages = 0 ∧ (getBlk (run ops) b).payloadPtr.isSome)
    ∧ (getBlk (run ops) b).freeCount ≤ 1
    ∧ ((getBlk (run ops) b).freeCount = 1 ↔ (getBlk (run ops) b).weakUsages = 0)
    ∧ (getBlk (run ops) b).weakUsages
        = (countRefs (run ops).weak b : Int)
          + (if 0 < (getBlk (run ops) b).usages then 1 else 0) := by
  have h := inv_run ops
  have hd := h.destroyC b hb
  have hf := h.freeC b hb
  refine ⟨?_, ?_, ?_, ?_, h.weakC b hb⟩
  · rw [hd]
    split <;> omega
  · rw [hd]
    split
    · rename_i hc
      exact ⟨fun _ => hc, fun _ => rfl⟩
    · rename_i hc
      constructor
      · intro h01
        omega
      · intro hp
        exact absurd hp hc
  · rw [hf]
    split <;> omega
  · rw [hf]
    split
    · rename_i hc
      exact ⟨fun _ => hc, fun _ => rfl⟩
    · rename_i hc
      constructor
      · intro h01
        omega
      · intro hp
        exact absurd hp hc

/-- C8 witness: one owner of object 1 plus one observing handle; the owner
releases.  The payload is destroyed exactly once (strong count zero), the
weak count has been decremented to the one remaining observing stake, and
the control block is not yet freed. -/
theorem C8_last_release_witness :
    (getBlk (run [Op.mkShared (some 1), Op.mkWeak 0, Op.dropShared 0]) 0).destroyCount ≤ 1
    ∧ ((getBlk (run [Op.mkShared (some 1), Op.mkWeak 0, Op.dropShared 0]) 0).destroyCount = 1
        ↔ (getBlk (run [Op.mkShared (some 1), Op.mkWeak 0, Op.dropShared 0]) 0).usages = 0
          ∧ (getBlk (run [Op.mkShared (some 1), Op.mkWeak 0, Op.dropShared 0]) 0).payloadPtr.isSome)
    ∧ (getBlk (run [Op.mkShared (some 1), Op.mkWeak 0, Op.dropShared 0]) 0).freeCount ≤ 1
    ∧ ((getBlk (run [Op.mkShared (some 1), Op.mkWeak 0, Op.dropShared 0]) 0).freeCount = 1
        ↔ (getBlk (run [Op.mkShared (some 1), Op.mkWeak 0, Op.dropShared 0]) 0).weakUsages = 0)
    ∧ (getBlk (run [Op.mkShared (some 1), Op.mkWeak 0, Op.dropShared 0]) 0).weakUsages
        = (countRefs (run [Op.mkShared (some 1), Op.mkWeak 0, Op.dropShared 0]).weak 0 : Int)
          + (if 0 < (getBlk (run [Op.mkShared (some 1), Op.mkWeak 0, Op.dropShared 0]) 0).usages
             then 1 else 0) :=
  C8_last_release_destroys_once_frees_once
    [Op.mkShared (some 1), Op.mkWeak 0, Op.dropShared 0] 0 (by decide)

/-- C10: constructing an observing handle from an empty owning handle, and
copying or destroying an empty observing handle, are total and safe: the
produced handle is empty and already `expired()`, no control block is
touched (the block heap is unchanged, hence no strong or weak counter
changes), and destruction merely removes the handle. -/
theorem C10_empty_weak_operations_are_safe (s : State) (i j : Nat)
    (hs : s.shared.getD i none = none) (hi : i < s.shared.length)
    (hw : s.weak.getD j none = none) (hj : j < s.weak.length) :
    (apply s (Op.mkWeak i)).blocks = s.blocks
    ∧ (apply s (Op.mkWeak i)).weak = s.weak ++ [none]
    ∧ expiredAt (apply s (Op.mkWeak i)) s.weak.length = true
    ∧ (apply s (Op.copyWeak j)).blocks = s.blocks
    ∧ (apply s (Op.copyWeak j)).weak = s.weak ++ [none]
    ∧ expiredAt (apply s (Op.copyWeak j)) s.weak.length = true
    ∧ (apply s (Op.dropWeak j)).blocks = s.blocks
    ∧ (apply s (Op.dropWeak j)).weak = s.weak.eraseIdx j
    ∧ (apply s (Op.dropWeak j)).shared = s.shared := by
  have hmk : apply s (Op.mkWeak i) = pushWeak s none := by
    simp only [apply, mkWeakF, if_pos hi, hs]
    rfl
  have hcp : apply s (Op.copyWeak j) = pushWeak s none := by
    simp only [apply, copyWeakF, if_pos hj, hw]
    rfl
  have hdp : apply s (Op.dropWeak j) = eraseWeak s j := by
    simp only [apply, dropWeakF, if_pos hj, hw]
    rfl
  refine ⟨by rw [hmk]; rfl, by rw [hmk]; rfl, ?_, by rw [hcp]; rfl,
    by rw [hcp]; rfl, ?_, by rw [hdp]; rfl, by rw [hdp]; rfl, by rw [hdp]; rfl⟩
  · unfold expiredAt
    rw [hmk, pushWeak_weak, getD_push_len]
  · unfold expiredAt
    rw [hcp, pushWeak_weak, getD_push_len]

/-- C10 witness: an empty owning handle and an empty observing handle in a
one-block-free heap. -/
theorem C10_empty_weak_witness :
    (apply (run [Op.mkShared none, Op.mkWeak 0]) (Op.mkWeak 0)).blocks
        = (run [Op.mkShared none, Op.mkWeak 0]).blocks
    ∧ (apply (run [Op.mkShared none, Op.mkWeak 0]) (Op.mkWeak 0)).weak
        = (run [Op.mkShared none, Op.mkWeak 0]).weak ++ [none]
    ∧ expiredAt (apply (run [Op.mkShared none, Op.mkWeak 0]) (Op.mkWeak 0))
        (run [Op.mkShared none, Op.mkWeak 0]).weak.length = true
    ∧ (apply (run [Op.mkShared none, Op.mkWeak 0]) (Op.copyWeak 0)).blocks
        = (run [Op.mkShared none, Op.mkWeak 0]).blocks
    ∧ (apply (run [Op.mkShared none, Op.mkWeak 0]) (Op.copyWeak 0)).weak
        = (run [Op.mkShared none, Op.mkWeak 0]).weak ++ [none]
    ∧ expiredAt (apply (run [Op.mkShared none, Op.mkWeak 0]) (Op.copyWeak 0))
        (run [Op.mkShared none, Op.mkWeak 0]).weak.length = true
    ∧ (apply (run [Op.mkShared none, Op.mkWeak 0]) (Op.dropWeak 0)).blocks
        = (run [Op.mkShared none, Op.mkWeak 0]).blocks
    ∧ (apply (run [Op.mkShared none, Op.mkWeak 0]) (Op.dropWeak 0)).weak
        = (run [Op.mkShared none, Op.mkWeak 0]).weak.eraseIdx 0
    ∧ (apply (run [Op.mkShared none, Op.mkWeak 0]) (Op.dropWeak 0)).shared
        = (run [Op.mkShared none, Op.mkWeak 0]).shared :=
  C10_empty_weak_operations_are_safe (run [Op.mkShared none, Op.mkWeak 0]) 0 0
    (by decide) (by decide) (by decide) (by decide)

/-- C9: moving an owning handle transfers the control-block reference and
leaves the source empty, without mutating any counter.  Move construction
(first half) leaves the entire block heap untouched: the new handle holds
the source's former reference, the source is empty with `use_count() = 0`
and no payload access.  Move assignment (second half) likewise transfers
the reference and empties the source; the only effect on the block heap is
the release of the stake the DESTINATION held before (performed by the
temporary's destructor, exactly `finish_one_instance_` on the old value) —
in particular, if the destination was empty, no counter changes at all. -/
theorem C9_move_transfers_without_counter_mutation (s : State) (i dst src : Nat)
    (hi : i < s.shared.length) (hdst : dst < s.shared.length)
    (hsrc : src < s.shared.length) (hne : dst ≠ src) :
    ((apply s (Op.moveShared i)).blocks = s.blocks
      ∧ (apply s (Op.moveShared i)).shared.getD i none = none
      ∧ (apply s (Op.moveShared i)).shared.getD s.shared.length none
          = s.shared.getD i none
      ∧ useCount (apply s (Op.moveShared i)) i = 0
      ∧ getPtr (apply s (Op.moveShared i)) i = none)
    ∧ ((apply s (Op.moveAssign dst src)).shared.getD dst none
          = s.shared.getD src none
      ∧ (apply s (Op.moveAssign dst src)).shared.getD src none = none
      ∧ (apply s (Op.moveAssign dst src)).blocks
          = finishBlocks s.blocks (s.shared.getD dst none)
      ∧ (s.shared.getD dst none = none →
          (apply s (Op.moveAssign dst src)).blocks = s.blocks)) := by
  have hm : apply s (Op.moveShared i)
      = pushShared (setShared s i none) (s.shared.getD i none) := by
    simp only [apply, moveSharedF, if_pos hi]
  have hmi : (apply s (Op.moveShared i)).shared.getD i none = none := by
    rw [hm]
    simp only [pushShared_shared, setShared_shared]
    rw [getD_push_lt _ _ _ i (by simpa using hi)]
    exact getD_set_self _ _ _ i hi
  constructor
  · refine ⟨by rw [hm]; rfl, hmi, ?_, ?_, ?_⟩
    · rw [hm]
      simp only [pushShared_shared, setShared_shared]
      rw [show s.shared.length = (s.shared.set i none).length from by simp]
      exact getD_push_len _ _ _
    · unfold useCount
      rw [hmi]
    · unfold getPtr
      rw [hmi]
  · have ha : apply s (Op.moveAssign dst src)
        = dropSharedF (swapSlots (moveSharedF s src) dst s.shared.length)
            s.shared.length := by
      simp only [apply, if_pos (And.intro hdst hsrc)]
    have hs1 : (moveSharedF s src).shared
        = s.shared.set src none ++ [s.shared.getD src none] := by
      simp only [moveSharedF, if_pos hsrc, pushShared_shared, setShared_shared]
    have hg_n : (s.shared.set src none ++ [s.shared.getD src none]).getD
        s.shared.length none = s.shared.getD src none := by
      rw [show s.shared.length = (s.shared.set src none).length from by simp]
      exact getD_push_len _ _ _
    have hg_dst : (s.shared.set src none ++ [s.shared.getD src none]).getD
        dst none = s.shared.getD dst none := by
      rw [getD_push_lt _ _ _ dst (by simpa using hdst)]
      exact getD_set_ne _ _ _ src dst (fun e => hne e.symm)
    have hswap : (swapSlots (moveSharedF s src) dst s.shared.length).shared
        = ((s.shared.set src none ++ [s.shared.getD src none]).set dst
            (s.shared.getD src none)).set s.shared.length
            (s.shared.getD dst none) := by
      simp only [swapSlots, setShared_shared, hs1, hg_n, hg_dst]
    have hlen2 : (swapSlots (moveSharedF s src) dst s.shared.length).shared.length
        = s.shared.length + 1 := by
      rw [hswap]
      simp
    have hval : (swapSlots (moveSharedF s src) dst s.shared.length).shared.getD
        s.shared.length none = s.shared.getD dst none := by
      rw [hswap]
      refine getD_set_self _ _ _ _ ?_
      simp
    have hblocks1 : (swapSlots (moveSharedF s src) dst s.shared.length).blocks
        = s.blocks := by
      simp only [swapSlots, setShared_blocks, moveSharedF, if_pos hsrc,
        pushShared_blocks]
    have hdrop : apply s (Op.moveAssign dst src)
        = eraseShared (finishOne (swapSlots (moveSharedF s src) dst
            s.shared.length) (s.shared.getD dst none)) s.shared.length := by
      rw [ha]
      unfold dropSharedF
      rw [if_pos (by rw [hlen2]; omega), hval]
    refine ⟨?_, ?_, ?_, ?_⟩
    · rw [hdrop]
      simp only [eraseShared_shared, finishOne_shared]
      rw [getD_eraseIdx_lt _ _ _ _ hdst, hswap]
      rw [getD_set_ne _ _ _ s.shared.length dst (by omega)]
      refine getD_set_self _ _ _ dst ?_
      simp
      omega
    · rw [hdrop]
      simp only [eraseShared_shared, finishOne_shared]
      rw [getD_eraseIdx_lt _ _ _ _ hsrc, hswap]
      rw [getD_set_ne _ _ _ s.shared.length src (by omega)]
      rw [getD_set_ne _ _ _ dst src hne]
      rw [getD_push_lt _ _ _ src (by simpa using hsrc)]
      exact getD_set_self _ _ _ src hsrc
    · rw [hdrop]
      simp only [eraseShared_blocks, finishOne_blocks, hblocks1]
    · intro h0
      rw [hdrop]
      simp only [eraseShared_blocks, finishOne_blocks, hblocks1, h0]
      rfl

/-- C9 witness: two distinct blocks; move-construct from handle 0 and
move-assign handle 1 into handle 0. -/
theorem C9_move_witness :
    ((apply (run [Op.mkShared (some 5), Op.mkShared (some 6)])
        (Op.moveShared 0)).blocks = (run [Op.mkShared (some 5), Op.mkShared (some 6)]).blocks
      ∧ (apply (run [Op.mkShared (some 5), Op.mkShared (some 6)])
          (Op.moveShared 0)).shared.getD 0 none = none
      ∧ (apply (run [Op.mkShared (some 5), Op.mkShared (some 6)])
          (Op.moveShared 0)).shared.getD
            (run [Op.mkShared (some 5), Op.mkShared (some 6)]).shared.length none
          = (run [Op.mkShared (some 5), Op.mkShared (some 6)]).shared.getD 0 none
      ∧ useCount (apply (run [Op.mkShared (some 5), Op.mkShared (some 6)])
          (Op.moveShared 0)) 0 = 0
      ∧ getPtr (apply (run [Op.mkShared (some 5), Op.mkShared (some 6)])
          (Op.moveShared 0)) 0 = none)
    ∧ ((apply (run [Op.mkShared (some 5), Op.mkShared (some 6)])
          (Op.moveAssign 0 1)).shared.getD 0 none
          = (run [Op.mkShared (some 5), Op.mkShared (some 6)]).shared.getD 1 none
      ∧ (apply (run [Op.mkShared (some 5), Op.mkShared (some 6)])
          (Op.moveAssign 0 1)).shared.getD 1 none = none
      ∧ (apply (run [Op.mkShared (some 5), Op.mkShared (some 6)])
          (Op.moveAssign 0 1)).blocks
          = finishBlocks (run [Op.mkShared (some 5), Op.mkShared (some 6)]).blocks
              ((run [Op.mkShared (some 5), Op.mkShared (some 6)]).shared.getD 0 none)
      ∧ ((run [Op.mkShared (some 5), Op.mkShared (some 6)]).shared.getD 0 none = none →
          (apply (run [Op.mkShared (some 5), Op.mkShared (some 6)])
            (Op.moveAssign 0 1)).blocks
            = (run [Op.mkShared (some 5), Op.mkShared (some 6)]).blocks)) :=
  C9_move_transfers_without_counter_mutation
    (run [Op.mkShared (some 5), Op.mkShared (some 6)]) 0 0 1
    (by decide) (by decide) (by decide) (by decide)

end SharedPtr
